import Mathlib

/-!
Verification development for the `mcpl-core` repository's connection core
(`src/connection.rs`, `src/types.rs`): a bidirectional newline-delimited
JSON-RPC 2.0 connection.

The embedding models:
* `Json` — `serde_json::Value` (numbers restricted to integers; the claims
  under study never involve floating-point payloads).
* `parseJson` — `serde_json::from_str::<Value>`: a strict JSON reader over
  the character list of the line.
* the typed (de)serialization derived by serde for `JsonRpcRequest`,
  `JsonRpcResponse`, `JsonRpcNotification`, `JsonRpcId`, `JsonRpcError`.
* `McplConnection` — the connection state: the unread inbound lines stand in
  for the buffered reader, `nextId` for the `AtomicI64`, `pending` for the
  key set of the `HashMap<JsonRpcId, oneshot::Sender<_>>` (every receiver is
  dropped at once in the source, so only the key set is observable), and
  `sent` accumulates the JSON values written by `write_message`.
* `readNextInternal`, `sendRequest`, `nextMessage` — direct translations of
  `McplConnection::read_next_internal`, `send_request`, `next_message`.

Read loops are driven by explicit fuel; `st.stream.length` is always enough
fuel because every successful read consumes at least one line, and fuel
irrelevance is proved below (`sendRequestLoop_fuel`, `nextMessageLoop_fuel`).
-/

/-- Model of `serde_json::Value`.  Numbers are modelled as integers: no claim
under study concerns floating-point payloads. -/
inductive Json where
  | null
  | bool (b : Bool)
  | num (n : Int)
  | str (s : String)
  | arr (elems : List Json)
  | obj (fields : List (String × Json))
deriving Repr

/-- First-match association lookup, as `serde_json::Map` key lookup. -/
def lookupField : List (String × Json) → String → Option Json
  | [], _ => none
  | (k, v) :: rest, key => if k = key then some v else lookupField rest key

/-- `serde_json::Value::get`: a field of an object, `None` on any other
value. -/
def Json.get : Json → String → Option Json
  | .obj fields, key => lookupField fields key
  | _, _ => none

/-! ### The JSON reader (model of `serde_json::from_str::<Value>`) -/

/-- JSON insignificant whitespace (space, tab, line feed, carriage return). -/
def skipWs : List Char → List Char
  | [] => []
  | c :: cs =>
    if c = ' ' ∨ c = '\t' ∨ c = '\n' ∨ c = '\r' then skipWs cs else c :: cs

/-- Body of a JSON string literal after the opening quote.  The basic escape
sequences are supported; `\u` escapes are not needed by any claim and are
rejected. -/
def parseStrBody : List Char → List Char → Except String (String × List Char)
  | acc, '"' :: rest => .ok (String.mk acc.reverse, rest)
  | acc, '\\' :: c :: rest =>
    if c = '"' then parseStrBody ('"' :: acc) rest
    else if c = '\\' then parseStrBody ('\\' :: acc) rest
    else if c = '/' then parseStrBody ('/' :: acc) rest
    else if c = 'n' then parseStrBody ('\n' :: acc) rest
    else if c = 't' then parseStrBody ('\t' :: acc) rest
    else if c = 'r' then parseStrBody ('\r' :: acc) rest
    else if c = 'b' then parseStrBody ('\x08' :: acc) rest
    else if c = 'f' then parseStrBody ('\x0c' :: acc) rest
    else .error "unsupported escape"
  | _, '\\' :: [] => .error "eof in escape"
  | acc, c :: rest =>
    if c.val < 32 then .error "control character in string"
    else parseStrBody (c :: acc) rest
  | _, [] => .error "eof in string"

/-- Digits to a natural number. -/
def digitsToNat (ds : List Char) : Nat :=
  ds.foldl (fun n c => 10 * n + (c.toNat - '0'.toNat)) 0

/-- A JSON number token.  Integer grammar as serde accepts it; a fractional
part or exponent is rejected by the model (floats are outside the scope of
every claim). -/
def parseNumber (cs : List Char) : Except String (Json × List Char) :=
  let (neg, cs1) := match cs with
    | '-' :: rest => (true, rest)
    | _ => (false, cs)
  let ds := cs1.takeWhile Char.isDigit
  let rest := cs1.dropWhile Char.isDigit
  if ds.isEmpty then .error "expected digits"
  else if ds.length > 1 ∧ ds.headD '0' = '0' then .error "leading zero"
  else
    match rest with
    | '.' :: _ => .error "fractional numbers not modelled"
    | 'e' :: _ => .error "exponent numbers not modelled"
    | 'E' :: _ => .error "exponent numbers not modelled"
    | _ =>
      let n : Int := Int.ofNat (digitsToNat ds)
      .ok (.num (if neg then -n else n), rest)

/-- Continuation tags for the single fuel-indexed reader: a value, the tail
of an array after its first element, or the tail of an object after its
first member. -/
inductive PReq where
  | value
  | arrTail (acc : List Json)
  | objTail (acc : List (String × Json))

/-- Expect a literal keyword (`null`, `true`, `false`). -/
def expectChars : List Char → List Char → Option (List Char)
  | [], cs => some cs
  | e :: es, c :: cs => if c = e then expectChars es cs else none
  | _ :: _, [] => none

/-- The fuel-indexed JSON reader.  Fuel only bounds recursion depth and
iteration count; `parseJson` supplies fuel ample for its input. -/
def parseCore : Nat → PReq → List Char → Except String (Json × List Char)
  | 0, _, _ => .error "recursion limit exceeded"
  | fuel + 1, .value, cs =>
    match skipWs cs with
    | [] => .error "eof while parsing a value"
    | 'n' :: rest =>
      match expectChars ['u', 'l', 'l'] rest with
      | some rest' => .ok (.null, rest')
      | none => .error "expected null"
    | 't' :: rest =>
      match expectChars ['r', 'u', 'e'] rest with
      | some rest' => .ok (.bool true, rest')
      | none => .error "expected true"
    | 'f' :: rest =>
      match expectChars ['a', 'l', 's', 'e'] rest with
      | some rest' => .ok (.bool false, rest')
      | none => .error "expected false"
    | '"' :: rest =>
      match parseStrBody [] rest with
      | .ok (s, rest') => .ok (.str s, rest')
      | .error e => .error e
    | '[' :: rest =>
      (match skipWs rest with
       | ']' :: rest' => .ok (.arr [], rest')
       | inner =>
         match parseCore fuel .value inner with
         | .ok (v, rest') => parseCore fuel (.arrTail [v]) rest'
         | .error e => .error e)
    | '{' :: rest =>
      (match skipWs rest with
       | '}' :: rest' => .ok (.obj [], rest')
       | '"' :: inner =>
         (match parseStrBody [] inner with
          | .ok (k, rest') =>
            (match skipWs rest' with
             | ':' :: rest'' =>
               (match parseCore fuel .value rest'' with
                | .ok (v, rest3) => parseCore fuel (.objTail [(k, v)]) rest3
                | .error e => .error e)
             | _ => .error "expected colon")
          | .error e => .error e)
       | _ => .error "expected object key")
    | c :: rest =>
      if c = '-' ∨ c.isDigit then parseNumber (c :: rest)
      else .error "expected value"
  | fuel + 1, .arrTail acc, cs =>
    match skipWs cs with
    | ']' :: rest => .ok (.arr acc.reverse, rest)
    | ',' :: rest =>
      (match parseCore fuel .value rest with
       | .ok (v, rest') => parseCore fuel (.arrTail (v :: acc)) rest'
       | .error e => .error e)
    | _ => .error "expected comma or bracket"
  | fuel + 1, .objTail acc, cs =>
    match skipWs cs with
    | '}' :: rest => .ok (.obj acc.reverse, rest)
    | ',' :: rest =>
      (match skipWs rest with
       | '"' :: inner =>
         (match parseStrBody [] inner with
          | .ok (k, rest') =>
            (match skipWs rest' with
             | ':' :: rest'' =>
               (match parseCore fuel .value rest'' with
                | .ok (v, rest3) => parseCore fuel (.objTail ((k, v) :: acc)) rest3
                | _ => .error "bad member value")
             | _ => .error "expected colon")
          | .error e => .error e)
       | _ => .error "expected object key")
    | _ => .error "expected comma or brace"

/-- Model of `serde_json::from_str::<serde_json::Value>`: parse one JSON text
completely (trailing whitespace allowed, trailing data rejected). -/
def parseJson (s : String) : Except String Json :=
  match parseCore (2 * s.length + 16) .value s.data with
  | .error e => .error e
  | .ok (v, rest) =>
    match skipWs rest with
    | [] => .ok v
    | _ => .error "trailing characters"

/-! ### Message types (`src/types.rs`) -/

/-- `JsonRpcId` (`types.rs`): an untagged sum of an `i64` and a `String`. -/
inductive JsonRpcId where
  | num (n : Int)
  | str (s : String)
deriving DecidableEq, Repr

/-- `JsonRpcError` (`types.rs`): `code : i32`, `message`, optional `data`. -/
structure JsonRpcError where
  code : Int
  message : String
  data : Option Json
deriving Repr

/-- `JsonRpcRequest` (`types.rs`). -/
structure JsonRpcRequest where
  jsonrpc : String
  id : JsonRpcId
  method : String
  params : Option Json
deriving Repr

/-- `JsonRpcResponse` (`types.rs`). -/
structure JsonRpcResponse where
  jsonrpc : String
  id : JsonRpcId
  result : Option Json
  error : Option JsonRpcError
deriving Repr

/-- `JsonRpcNotification` (`types.rs`). -/
structure JsonRpcNotification where
  jsonrpc : String
  method : String
  params : Option Json
deriving Repr

/-- `JsonRpcMessage` (`types.rs`): untagged union of the three shapes. -/
inductive JsonRpcMessage where
  | request (r : JsonRpcRequest)
  | response (r : JsonRpcResponse)
  | notification (n : JsonRpcNotification)
deriving Repr

/-! ### Serialization (serde `Serialize` derives of `types.rs`)

Fields are emitted in declaration order; an `Option` field marked
`skip_serializing_if = "Option::is_none"` is omitted when `None`. -/

/-- Serde serialization of `JsonRpcId` (untagged). -/
def JsonRpcId.toJson : JsonRpcId → Json
  | .num n => .num n
  | .str s => .str s

/-- An optional trailing field: present iff the option is `some`. -/
def optField (name : String) : Option Json → List (String × Json)
  | none => []
  | some v => [(name, v)]

/-- Serde serialization of `JsonRpcError`. -/
def errorToJson (e : JsonRpcError) : Json :=
  .obj ([("code", .num e.code), ("message", .str e.message)] ++ optField "data" e.data)

/-- Serde serialization of `JsonRpcRequest`. -/
def requestToJson (r : JsonRpcRequest) : Json :=
  .obj ([("jsonrpc", .str r.jsonrpc), ("id", r.id.toJson), ("method", .str r.method)]
        ++ optField "params" r.params)

/-- Serde serialization of `JsonRpcResponse`. -/
def responseToJson (r : JsonRpcResponse) : Json :=
  .obj ([("jsonrpc", .str r.jsonrpc), ("id", r.id.toJson)]
        ++ optField "result" r.result
        ++ (match r.error with | none => [] | some e => [("error", errorToJson e)]))

/-- Serde serialization of `JsonRpcNotification`. -/
def notificationToJson (n : JsonRpcNotification) : Json :=
  .obj ([("jsonrpc", .str n.jsonrpc), ("method", .str n.method)]
        ++ optField "params" n.params)

/-- Serde serialization of `JsonRpcMessage` (untagged: the variant's own
serialization). -/
def messageToJson : JsonRpcMessage → Json
  | .request r => requestToJson r
  | .response r => responseToJson r
  | .notification n => notificationToJson n

/-! ### Typed deserialization (serde `Deserialize` derives of `types.rs`)

`serde_json::from_value::<T>` for the concrete message types.  Unknown
fields are ignored; a missing `Option` field and an `Option` field holding
JSON `null` both decode to `None`; any other field is required.  The error
strings model serde's diagnostics; no theorem depends on their text. -/

/-- i64 bounds: `JsonRpcId::Number` holds an `i64`, so an integer outside
`[-2^63, 2^63)` does not decode into the `Number` variant. -/
def i64Min : Int := -(2 ^ 63)

def i64Max : Int := 2 ^ 63 - 1

/-- Untagged decode of `JsonRpcId`: first the `i64` variant, then the
`String` variant. -/
def decodeId : Json → Except String JsonRpcId
  | .num n =>
    if i64Min ≤ n ∧ n ≤ i64Max then .ok (.num n)
    else .error "data did not match any variant of untagged enum JsonRpcId"
  | .str s => .ok (.str s)
  | _ => .error "data did not match any variant of untagged enum JsonRpcId"

/-- Decode of a required `String` field value. -/
def decodeString : Json → Except String String
  | .str s => .ok s
  | _ => .error "invalid type: expected a string"

/-- Decode of an `Option<serde_json::Value>` field: a missing field and a
`null` field both decode to `None`; this decode cannot fail. -/
def decodeOptValue : Option Json → Option Json
  | none => none
  | some .null => none
  | some v => some v

/-- A required field of an object. -/
def reqField (v : Json) (name : String) : Except String Json :=
  match v.get name with
  | some f => .ok f
  | none => .error ("missing field " ++ name)

/-- Decode of a `code : i32` field value (bound checked as serde does). -/
def decodeI32 : Json → Except String Int
  | .num n =>
    if -(2 ^ 31) ≤ n ∧ n ≤ 2 ^ 31 - 1 then .ok n
    else .error "invalid value: integer out of range of i32"
  | _ => .error "invalid type: expected i32"

/-- `serde_json::from_value::<JsonRpcError>`. -/
def decodeError (v : Json) : Except String JsonRpcError :=
  match reqField v "code" with
  | .error e => .error e
  | .ok codeJson =>
    match decodeI32 codeJson with
    | .error e => .error e
    | .ok code =>
      match reqField v "message" with
      | .error e => .error e
      | .ok msgJson =>
        match decodeString msgJson with
        | .error e => .error e
        | .ok message =>
          .ok { code := code, message := message,
                data := decodeOptValue (v.get "data") }

/-- Decode of an `Option<JsonRpcError>` field. -/
def decodeOptError : Option Json → Except String (Option JsonRpcError)
  | none => .ok none
  | some .null => .ok none
  | some v => (decodeError v).map some

/-- `serde_json::from_value::<JsonRpcRequest>`. -/
def decodeRequest (v : Json) : Except String JsonRpcRequest :=
  match reqField v "jsonrpc" with
  | .error e => .error e
  | .ok jr =>
    match decodeString jr with
    | .error e => .error e
    | .ok jsonrpc =>
      match reqField v "id" with
      | .error e => .error e
      | .ok idJson =>
        match decodeId idJson with
        | .error e => .error e
        | .ok id =>
          match reqField v "method" with
          | .error e => .error e
          | .ok mJson =>
            match decodeString mJson with
            | .error e => .error e
            | .ok method =>
              .ok { jsonrpc := jsonrpc, id := id, method := method,
                    params := decodeOptValue (v.get "params") }

/-- `serde_json::from_value::<JsonRpcResponse>`. -/
def decodeResponse (v : Json) : Except String JsonRpcResponse :=
  match reqField v "jsonrpc" with
  | .error e => .error e
  | .ok jr =>
    match decodeString jr with
    | .error e => .error e
    | .ok jsonrpc =>
      match reqField v "id" with
      | .error e => .error e
      | .ok idJson =>
        match decodeId idJson with
        | .error e => .error e
        | .ok id =>
          match decodeOptError (v.get "error") with
          | .error e => .error e
          | .ok error =>
            .ok { jsonrpc := jsonrpc, id := id,
                  result := decodeOptValue (v.get "result"), error := error }

/-- `serde_json::from_value::<JsonRpcNotification>`. -/
def decodeNotification (v : Json) : Except String JsonRpcNotification :=
  match reqField v "jsonrpc" with
  | .error e => .error e
  | .ok jr =>
    match decodeString jr with
    | .error e => .error e
    | .ok jsonrpc =>
      match reqField v "method" with
      | .error e => .error e
      | .ok mJson =>
        match decodeString mJson with
        | .error e => .error e
        | .ok method =>
          .ok { jsonrpc := jsonrpc, method := method,
                params := decodeOptValue (v.get "params") }

/-! ### Connection (`src/connection.rs`) -/

/-- `ConnectionError` (`connection.rs`).  `io` never arises in the model (the
modelled stream does not fail), `json` carries the serde diagnostic string,
`timeout` and `unexpectedResponse` are declared but never constructed by the
source. -/
inductive ConnectionError where
  | io (msg : String)
  | json (e : String)
  | closed
  | timeout
  | rpc (code : Int) (message : String)
  | unexpectedResponse (id : JsonRpcId)
deriving Repr

/-- `IncomingMessage` (`connection.rs`): a peer-initiated message handed to
the caller. -/
inductive IncomingMessage where
  | request (r : JsonRpcRequest)
  | notification (n : JsonRpcNotification)
deriving Repr

/-- `InternalMessage` (`connection.rs`): the result of one classified read. -/
inductive InternalMessage where
  | response (r : JsonRpcResponse)
  | incoming (m : IncomingMessage)
deriving Repr

/-- Connection state.  `stream` is the sequence of inbound lines not yet
consumed by the buffered reader; `nextId` is the `AtomicI64` counter;
`pending` is the key set of the `pending` hash map (the `oneshot` receivers
are all dropped immediately by the source, so the map's values have no
observable behaviour); `sent` records the JSON values written out. -/
structure McplConnection where
  stream : List String
  nextId : Int
  pending : List JsonRpcId
  sent : List Json
deriving Repr

/-- `McplConnection::from_parts` / `from_tcp`: a fresh connection over a
stream: counter at 1, no pending entry, nothing written. -/
def fromParts (stream : List String) : McplConnection :=
  { stream := stream, nextId := 1, pending := [], sent := [] }

/-- `HashMap::insert` on the key set: the key is present exactly once
afterwards. -/
def insertPending (id : JsonRpcId) (l : List JsonRpcId) : List JsonRpcId :=
  id :: l.erase id

/-- Wrapping `i64` increment-source value: `fetch_add(1, Relaxed)` wraps on
overflow. -/
def wrapI64 (n : Int) : Int :=
  (n + 2 ^ 63) % 2 ^ 64 - 2 ^ 63

/-- Outcome of one `read_next_internal` call: a classified message and the
remaining stream, an error and the remaining stream, or a panic (the
`unwrap_err` in the classification-failure arm panics when the line's JSON
value is `null`). -/
inductive ReadResult where
  | ok (msg : InternalMessage) (rest : List String)
  | err (e : ConnectionError) (rest : List String)
  | panicked
deriving Repr

/-- Does `serde_json::from_str::<()>(trimmed)` succeed?  `()` deserializes
exactly from JSON `null`. -/
def unitFromStrOk (trimmed : String) : Bool :=
  match parseJson trimmed with
  | .ok .null => true
  | _ => false

/-- The serde diagnostic produced by `from_str::<()>` on a non-`null` text;
the error value depends only on serde's diagnostic, never on the raw line
text itself. -/
def unitFromStrErr : String := "invalid type, expected unit"

/-- The classification-and-decode step of `read_next_internal`
(`connection.rs` lines 195-216), applied to the parsed value.  `trimmed` is
the trimmed line, used only by the classification-failure arm, which calls
`serde_json::from_str::<()>(trimmed).unwrap_err()` — a call that panics when
the text is JSON `null`. -/
def readValue (v : Json) (trimmed : String) (rest : List String) : ReadResult :=
  if (v.get "id").isSome && (v.get "method").isSome then
    match decodeRequest v with
    | .ok r => .ok (.incoming (.request r)) rest
    | .error e => .err (.json e) rest
  else if (v.get "id").isSome && ((v.get "result").isSome || (v.get "error").isSome) then
    match decodeResponse v with
    | .ok r => .ok (.response r) rest
    | .error e => .err (.json e) rest
  else if (v.get "method").isSome && !(v.get "id").isSome then
    match decodeNotification v with
    | .ok n => .ok (.incoming (.notification n)) rest
    | .error e => .err (.json e) rest
  else
    if unitFromStrOk trimmed then .panicked
    else .err (.json unitFromStrErr) rest

/-- Whitespace for Rust's `str::trim` as it occurs in newline-delimited
JSON traffic (space, tab, line feed, carriage return; the full Unicode
White_Space set is not needed by any claim). -/
def isRustWs (c : Char) : Bool :=
  c = ' ' ∨ c = '\t' ∨ c = '\n' ∨ c = '\r'

/-- Model of Rust's `str::trim`: strip leading and trailing whitespace. -/
def rustTrim (s : String) : String :=
  String.mk (((s.data.dropWhile isRustWs).reverse.dropWhile isRustWs).reverse)

/-- `McplConnection::read_next_internal`: read a line (empty list is
end-of-stream, line 182: `Err(ConnectionError::Closed)`), skip lines that
trim to empty, parse the rest as JSON (`?` turns a parse failure into
`ConnectionError::Json`), then classify. -/
def readNextInternal : List String → ReadResult
  | [] => .err .closed []
  | line :: rest =>
    let trimmed := rustTrim line
    if trimmed.data.isEmpty then readNextInternal rest
    else
      match parseJson trimmed with
      | .error e => .err (.json e) rest
      | .ok v => readValue v trimmed rest

/-- Outcome of `send_request`: the success payload, an error, or a
propagated panic; non-panic outcomes carry the connection state after the
call. -/
inductive SendResult where
  | ok (payload : Json) (st : McplConnection)
  | err (e : ConnectionError) (st : McplConnection)
  | panicked
deriving Repr

/-- The read loop of `send_request` (`connection.rs` lines 90-114), awaiting
the response whose id is `Number idK`:
* a `Response` with the awaited id returns — an error object beats the
  result (`Rpc` error), otherwise the payload is `result.unwrap_or(Null)`;
* a `Response` with any other id is routed: its id is removed from `pending`
  (the send on the removed one-shot sender has no observable effect) and the
  loop continues;
* an incoming `Request`/`Notification` is logged and dropped (lines
  107-112), and the loop continues.
Fuel only bounds iteration; a successful read always shortens the stream, so
`stream.length` fuel is enough, and the fuel-0 case equals what
`read_next_internal` returns on the then-empty stream. -/
def sendRequestLoop (idK : Int) : Nat → McplConnection → SendResult
  | 0, st => .err .closed st
  | fuel + 1, st =>
    match readNextInternal st.stream with
    | .panicked => .panicked
    | .err e rest => .err e { st with stream := rest }
    | .ok (.response resp) rest =>
      if resp.id = JsonRpcId.num idK then
        match resp.error with
        | some err => .err (.rpc err.code err.message) { st with stream := rest }
        | none => .ok (resp.result.getD Json.null) { st with stream := rest }
      else
        sendRequestLoop idK fuel
          { st with stream := rest, pending := st.pending.erase resp.id }
    | .ok (.incoming _) rest =>
      sendRequestLoop idK fuel { st with stream := rest }

/-- `McplConnection::send_request` (`connection.rs` lines 76-115): allocate
the next id (`fetch_add` on the counter), register the id in `pending`
(its receiver is dropped immediately), write the request, then drive reads
until the matching response arrives. -/
def sendRequest (method : String) (params : Option Json) (st : McplConnection) :
    SendResult :=
  let id := st.nextId
  let request : JsonRpcRequest :=
    { jsonrpc := "2.0", id := .num id, method := method, params := params }
  let st1 : McplConnection :=
    { st with
      nextId := wrapI64 (st.nextId + 1)
      pending := insertPending (.num id) st.pending
      sent := st.sent ++ [requestToJson request] }
  sendRequestLoop id st1.stream.length st1

/-- Outcome of `next_message`. -/
inductive NextResult where
  | ok (msg : IncomingMessage) (st : McplConnection)
  | err (e : ConnectionError) (st : McplConnection)
  | panicked
deriving Repr

/-- The read loop of `next_message` (`connection.rs` lines 157-168): a
`Response` is routed to `pending` (removing its id) and the loop continues;
a `Request`/`Notification` is returned.  There is no buffer to consult:
the connection stores none. -/
def nextMessageLoop : Nat → McplConnection → NextResult
  | 0, st => .err .closed st
  | fuel + 1, st =>
    match readNextInternal st.stream with
    | .panicked => .panicked
    | .err e rest => .err e { st with stream := rest }
    | .ok (.response resp) rest =>
      nextMessageLoop fuel
        { st with stream := rest, pending := st.pending.erase resp.id }
    | .ok (.incoming m) rest => .ok m { st with stream := rest }

/-- `McplConnection::next_message`. -/
def nextMessage (st : McplConnection) : NextResult :=
  nextMessageLoop st.stream.length st

/-! ### Supporting lemmas: reads consume the stream, fuel is irrelevant -/

theorem readValue_ok_rest {v : Json} {t : String} {tail : List String}
    {m : InternalMessage} {rest : List String}
    (h : readValue v t tail = .ok m rest) : rest = tail := by
  unfold readValue at h
  split_ifs at h
  all_goals repeat' split at h
  all_goals cases h
  all_goals rfl

theorem readValue_err_rest {v : Json} {t : String} {tail : List String}
    {e : ConnectionError} {rest : List String}
    (h : readValue v t tail = .err e rest) : rest = tail := by
  unfold readValue at h
  split_ifs at h
  all_goals repeat' split at h
  all_goals cases h
  all_goals rfl

theorem readNextInternal_ok_length {l : List String} {m : InternalMessage}
    {rest : List String} (h : readNextInternal l = .ok m rest) :
    rest.length < l.length := by
  induction l with
  | nil => simp [readNextInternal] at h
  | cons line tail ih =>
    rw [readNextInternal] at h
    by_cases he : (rustTrim line).data.isEmpty
    · rw [if_pos he] at h
      exact Nat.lt_trans (ih h) (Nat.lt_succ_self _)
    · rw [if_neg he] at h
      cases hp : parseJson (rustTrim line) with
      | error e => rw [hp] at h; cases h
      | ok v =>
        rw [hp] at h
        rw [readValue_ok_rest h]
        exact Nat.lt_succ_self _

theorem sendRequestLoop_fuel_succ (idK : Int) :
    ∀ fuel st, st.stream.length ≤ fuel →
      sendRequestLoop idK (fuel + 1) st = sendRequestLoop idK fuel st := by
  intro fuel
  induction fuel with
  | zero =>
    intro st h
    have hs : st.stream = [] := List.length_eq_zero.mp (Nat.le_zero.mp h)
    rw [sendRequestLoop, sendRequestLoop, hs]
    simp [readNextInternal]
    cases st
    simp_all
  | succ n ih =>
    intro st h
    rw [sendRequestLoop]
    conv_rhs => rw [sendRequestLoop]
    cases hr : readNextInternal st.stream with
    | panicked => rfl
    | err e rest => rfl
    | ok msg rest =>
      have hlen := readNextInternal_ok_length hr
      have hrest : rest.length ≤ n := by omega
      cases msg with
      | response resp =>
        by_cases hid : resp.id = JsonRpcId.num idK
        · simp [hid]
        · simp only [if_neg hid]
          exact ih _ hrest
      | incoming m => exact ih _ hrest

/-- Any fuel at least `st.stream.length` gives the same result: the fuel in
`sendRequest` is ample, it never cuts the loop short. -/
theorem sendRequestLoop_fuel (idK : Int) :
    ∀ fuel st, st.stream.length ≤ fuel →
      sendRequestLoop idK fuel st = sendRequestLoop idK st.stream.length st := by
  intro fuel
  induction fuel with
  | zero => intro st h; rw [Nat.le_zero.mp h]
  | succ n ih =>
    intro st h
    rcases Nat.lt_or_ge st.stream.length (n + 1) with hlt | hge
    · have hle : st.stream.length ≤ n := by omega
      rw [sendRequestLoop_fuel_succ idK n st hle]
      exact ih st hle
    · have : st.stream.length = n + 1 := by omega
      rw [this]

theorem nextMessageLoop_fuel_succ :
    ∀ fuel st, st.stream.length ≤ fuel →
      nextMessageLoop (fuel + 1) st = nextMessageLoop fuel st := by
  intro fuel
  induction fuel with
  | zero =>
    intro st h
    have hs : st.stream = [] := List.length_eq_zero.mp (Nat.le_zero.mp h)
    rw [nextMessageLoop, nextMessageLoop, hs]
    simp [readNextInternal]
    cases st
    simp_all
  | succ n ih =>
    intro st h
    rw [nextMessageLoop]
    conv_rhs => rw [nextMessageLoop]
    cases hr : readNextInternal st.stream with
    | panicked => rfl
    | err e rest => rfl
    | ok msg rest =>
      have hlen := readNextInternal_ok_length hr
      have hrest : rest.length ≤ n := by omega
      cases msg with
      | response resp => exact ih _ hrest
      | incoming m => rfl

/-- Fuel irrelevance for the `next_message` loop. -/
theorem nextMessageLoop_fuel :
    ∀ fuel st, st.stream.length ≤ fuel →
      nextMessageLoop fuel st = nextMessageLoop st.stream.length st := by
  intro fuel
  induction fuel with
  | zero => intro st h; rw [Nat.le_zero.mp h]
  | succ n ih =>
    intro st h
    rcases Nat.lt_or_ge st.stream.length (n + 1) with hlt | hge
    · have hle : st.stream.length ≤ n := by omega
      rw [nextMessageLoop_fuel_succ n st hle]
      exact ih st hle
    · have : st.stream.length = n + 1 := by omega
      rw [this]

/-! ### Claim theorems -/

theorem readNextInternal_cons_parsed {line : String} {rest : List String} {v : Json}
    (hp : parseJson (rustTrim line) = .ok v) :
    readNextInternal (line :: rest) = readValue v (rustTrim line) rest := by
  rw [readNextInternal]
  cases hempty : (rustTrim line).data.isEmpty with
  | false => simp only [hempty, Bool.false_eq_true, if_false, hp]
  | true =>
    exfalso
    have hnil : rustTrim line = ⟨[]⟩ := by
      cases hl : rustTrim line with
      | mk data => rw [hl] at hempty; simp [List.isEmpty_iff] at hempty; simp [hempty]
    rw [hnil] at hp
    have : parseJson ⟨[]⟩ = .error "eof while parsing a value" := rfl
    rw [this] at hp
    cases hp

/-- The request branch of `read_next_internal`: typed decode of the value as
a `JsonRpcRequest`, a decode failure surfacing as a `Json` error. -/
def requestOutcome (v : Json) (rest : List String) : ReadResult :=
  match decodeRequest v with
  | .ok r => .ok (.incoming (.request r)) rest
  | .error e => .err (.json e) rest

/-- The response branch of `read_next_internal`. -/
def responseOutcome (v : Json) (rest : List String) : ReadResult :=
  match decodeResponse v with
  | .ok r => .ok (.response r) rest
  | .error e => .err (.json e) rest

/-- The notification branch of `read_next_internal`. -/
def notificationOutcome (v : Json) (rest : List String) : ReadResult :=
  match decodeNotification v with
  | .ok n => .ok (.incoming (.notification n)) rest
  | .error e => .err (.json e) rest

/-- C2: for every inbound line that parses as a JSON object, classification
is decided by field presence in priority order — id and method give a
Request; otherwise id with result or error gives a Response; otherwise a
method without id gives a Notification; otherwise the read fails with a
malformed-message (`Json`) error, never silently dropping the line. -/
theorem classification_priority (fields : List (String × Json)) (line : String)
    (rest : List String)
    (hp : parseJson (rustTrim line) = .ok (.obj fields)) :
    (((Json.obj fields).get "id").isSome = true →
       ((Json.obj fields).get "method").isSome = true →
       readNextInternal (line :: rest) = requestOutcome (.obj fields) rest)
  ∧ (¬(((Json.obj fields).get "id").isSome = true ∧
        ((Json.obj fields).get "method").isSome = true) →
       ((Json.obj fields).get "id").isSome = true →
       (((Json.obj fields).get "result").isSome = true ∨
        ((Json.obj fields).get "error").isSome = true) →
       readNextInternal (line :: rest) = responseOutcome (.obj fields) rest)
  ∧ (((Json.obj fields).get "method").isSome = true →
       ((Json.obj fields).get "id").isSome = false →
       readNextInternal (line :: rest) = notificationOutcome (.obj fields) rest)
  ∧ (¬(((Json.obj fields).get "id").isSome = true ∧
        ((Json.obj fields).get "method").isSome = true) →
     ¬(((Json.obj fields).get "id").isSome = true ∧
        (((Json.obj fields).get "result").isSome = true ∨
         ((Json.obj fields).get "error").isSome = true)) →
     ¬(((Json.obj fields).get "method").isSome = true ∧
        ((Json.obj fields).get "id").isSome = false) →
       readNextInternal (line :: rest) = .err (.json unitFromStrErr) rest) := by
  rw [readNextInternal_cons_parsed hp]
  refine ⟨?_, ?_, ?_, ?_⟩
  · intro h1 h2
    unfold readValue requestOutcome
    rw [h1, h2]
    rfl
  · intro hn h1 h2
    have hm : ((Json.obj fields).get "method").isSome = false := by
      cases hmm : ((Json.obj fields).get "method").isSome
      · rfl
      · exact absurd ⟨h1, hmm⟩ hn
    unfold readValue responseOutcome
    rw [h1, hm]
    have hro : (((Json.obj fields).get "result").isSome ||
        ((Json.obj fields).get "error").isSome) = true := by
      rcases h2 with h | h <;> simp [h]
    rw [hro]
    rfl
  · intro h1 h2
    unfold readValue notificationOutcome
    rw [h1, h2]
    rfl
  · intro hn1 hn2 hn3
    have hc1 : (((Json.obj fields).get "id").isSome &&
        ((Json.obj fields).get "method").isSome) = false := by
      cases h1 : ((Json.obj fields).get "id").isSome <;>
        cases h2 : ((Json.obj fields).get "method").isSome <;> simp_all
    have hc2 : (((Json.obj fields).get "id").isSome &&
        (((Json.obj fields).get "result").isSome ||
         ((Json.obj fields).get "error").isSome)) = false := by
      cases h1 : ((Json.obj fields).get "id").isSome <;>
        cases h2 : ((Json.obj fields).get "result").isSome <;>
          cases h3 : ((Json.obj fields).get "error").isSome <;> simp_all
    have hc3 : (((Json.obj fields).get "method").isSome &&
        !((Json.obj fields).get "id").isSome) = false := by
      cases h1 : ((Json.obj fields).get "id").isSome <;>
        cases h2 : ((Json.obj fields).get "method").isSome <;> simp_all
    have hu : unitFromStrOk (rustTrim line) = false := by
      unfold unitFromStrOk
      rw [hp]
    unfold readValue
    rw [hc1, hc2, hc3, hu]
    rfl

/-- Witness for `classification_priority`: a concrete notification line
(rule 3) and a concrete line with an identifier but no method, result or
error (rule 4: `{"id":1}` classifies as none of the three shapes and
the read fails with a `Json` error). -/
theorem classification_priority_witness :
    (readNextInternal ["\x7b\"jsonrpc\":\"2.0\",\"method\":\"m\"\x7d"] =
      notificationOutcome
        (.obj [("jsonrpc", .str "2.0"), ("method", .str "m")]) [])
    ∧ readNextInternal ["\x7b\"id\":1\x7d"] =
        .err (.json unitFromStrErr) [] :=
  ⟨(classification_priority [("jsonrpc", .str "2.0"), ("method", .str "m")]
      "\x7b\"jsonrpc\":\"2.0\",\"method\":\"m\"\x7d" [] rfl).2.2.1 rfl rfl,
   (classification_priority [("id", .num 1)] "\x7b\"id\":1\x7d" [] rfl).2.2.2
      (by decide) (by decide) (by decide)⟩

theorem decodeRequest_id_null {v : Json} (hid : v.get "id" = some .null) :
    ∃ e, decodeRequest v = .error e := by
  cases hjr : v.get "jsonrpc" with
  | none =>
    exact ⟨"missing field jsonrpc", by unfold decodeRequest reqField; rw [hjr]; rfl⟩
  | some jr =>
    cases hs : decodeString jr with
    | error e =>
      refine ⟨e, ?_⟩
      unfold decodeRequest reqField
      rw [hjr]
      simp only []
      rw [hs]
    | ok s =>
      refine ⟨"data did not match any variant of untagged enum JsonRpcId", ?_⟩
      unfold decodeRequest reqField
      rw [hjr]
      simp only []
      rw [hs]
      simp only []
      rw [hid]
      simp only []
      rfl

/-- Is the read outcome a `ConnectionError::Json` failure? -/
def isJsonError : ReadResult → Bool
  | .err (.json _) _ => true
  | _ => false

/-- C9: an object whose `id` field is present holding JSON `null` counts as
having an identifier; with a `method` present it is classified as a Request,
and the read then fails with a JSON deserialization error (null is not a
valid integer-or-string identifier) — it is never returned as a
Notification. -/
theorem id_null_counts_as_present (fields : List (String × Json)) (line : String)
    (rest : List String)
    (hp : parseJson (rustTrim line) = .ok (.obj fields))
    (hid : (Json.obj fields).get "id" = some .null)
    (hm : ((Json.obj fields).get "method").isSome = true) :
    isJsonError (readNextInternal (line :: rest)) = true := by
  have h1 : ((Json.obj fields).get "id").isSome = true := by rw [hid]; rfl
  obtain ⟨e, he⟩ := decodeRequest_id_null hid
  rw [readNextInternal_cons_parsed hp]
  unfold readValue
  rw [h1, hm, he]
  rfl

/-- Witness for `id_null_counts_as_present` at a concrete line. -/
theorem id_null_counts_as_present_witness :
    isJsonError (readNextInternal ["\x7b\"id\":null,\"method\":\"m\"\x7d"]) = true :=
  id_null_counts_as_present [("id", .null), ("method", .str "m")]
    "\x7b\"id\":null,\"method\":\"m\"\x7d" [] rfl rfl rfl

/-- C8 counterexample: the line `null` parses, fails classification, and the
classification-failure arm's `serde_json::from_str::<()>(trimmed).unwrap_err()`
panics (from_str::<()> succeeds on `null`), so the operation does not fail
with a malformed-message error as claimed. -/
theorem null_line_panics : readNextInternal ["null"] = .panicked := rfl

/-- C8 (amended): a non-empty line that fails structural JSON parsing fails
the read with a `Json` error holding serde's diagnostic, and a line that
fails classification fails the read with a `Json` error — except a line
whose JSON value is `null`, which panics; the error carries serde's
diagnostic, not the raw line text (the raw line is only logged). -/
theorem malformed_line_fails_with_json_error (line : String) (rest : List String) :
    (∀ e, parseJson (rustTrim line) = .error e →
       (rustTrim line).data.isEmpty = false →
       readNextInternal (line :: rest) = .err (.json e) rest)
  ∧ (∀ v, parseJson (rustTrim line) = .ok v →
       ((v.get "id").isSome && (v.get "method").isSome) = false →
       ((v.get "id").isSome &&
         ((v.get "result").isSome || (v.get "error").isSome)) = false →
       ((v.get "method").isSome && !(v.get "id").isSome) = false →
       ((v = .null → readNextInternal (line :: rest) = .panicked)
        ∧ (v ≠ .null →
            readNextInternal (line :: rest) = .err (.json unitFromStrErr) rest))) := by
  constructor
  · intro e hp hne
    rw [readNextInternal]
    rw [hne]
    simp only [Bool.false_eq_true, if_false, hp]
  · intro v hp hc1 hc2 hc3
    rw [readNextInternal_cons_parsed hp]
    unfold readValue
    rw [hc1, hc2, hc3]
    constructor
    · intro hv
      subst hv
      have hu : unitFromStrOk (rustTrim line) = true := by
        unfold unitFromStrOk; rw [hp]
      rw [hu]
      rfl
    · intro hv
      have hu : unitFromStrOk (rustTrim line) = false := by
        unfold unitFromStrOk
        rw [hp]
        cases v <;> simp_all
      rw [hu]
      rfl

/-- Witness for `malformed_line_fails_with_json_error` at a line that is not
JSON at all. -/
theorem malformed_line_fails_with_json_error_witness :
    readNextInternal ["@"] = .err (.json "expected value") [] :=
  (malformed_line_fails_with_json_error "@" []).1 "expected value" rfl rfl

/-- C3: the `send_request` read loop, awaiting id `K`: a response with id
`K` and no error object resolves the call with `result.unwrap_or(Null)` (an
absent result yields the null payload); a response with id `K` carrying an
error object fails the call with the peer's code and message as an `Rpc`
error; a response with any other id neither resolves the call nor surfaces
an error — the loop routes it (removing its id from `pending`) and reads
on. -/
theorem response_correlation (idK : Int) (fuel : Nat) (st : McplConnection)
    (resp : JsonRpcResponse) (rest : List String)
    (hr : readNextInternal st.stream = .ok (.response resp) rest) :
    (resp.id = JsonRpcId.num idK → resp.error = none →
       sendRequestLoop idK (fuel + 1) st =
         .ok (resp.result.getD Json.null) { st with stream := rest })
  ∧ (∀ e, resp.id = JsonRpcId.num idK → resp.error = some e →
       sendRequestLoop idK (fuel + 1) st =
         .err (.rpc e.code e.message) { st with stream := rest })
  ∧ (resp.id ≠ JsonRpcId.num idK →
       sendRequestLoop idK (fuel + 1) st =
         sendRequestLoop idK fuel
           { st with stream := rest, pending := st.pending.erase resp.id }) := by
  refine ⟨?_, ?_, ?_⟩
  · intro hid herr
    rw [sendRequestLoop, hr]
    simp only [hid, if_true, herr]
  · intro e hid herr
    rw [sendRequestLoop, hr]
    simp only [hid, if_true, herr]
  · intro hid
    rw [sendRequestLoop, hr]
    simp only [hid, if_false]

/-- Witness for `response_correlation`: a concrete response with the awaited
id resolves the loop with its result payload. -/
theorem response_correlation_witness :
    sendRequestLoop 1 1 ⟨["\x7b\"jsonrpc\":\"2.0\",\"id\":1,\"result\":7\x7d"], 2,
        [JsonRpcId.num 1], []⟩ =
      .ok (.num 7) ⟨[], 2, [JsonRpcId.num 1], []⟩ :=
  (response_correlation 1 0
    ⟨["\x7b\"jsonrpc\":\"2.0\",\"id\":1,\"result\":7\x7d"], 2, [JsonRpcId.num 1], []⟩
    ⟨"2.0", .num 1, some (.num 7), none⟩ [] rfl).1 rfl rfl

/-- C7: an end-of-stream read (the peer closed the connection) makes the
blocked operation fail with the distinct `Closed` error immediately:
`read_next_internal` returns `Closed` at end of stream (also after skipping
blank keep-alive lines), and both `next_message` and `send_request` surface
it. -/
theorem closed_on_end_of_stream (st : McplConnection) (m : String)
    (p : Option Json) (h : st.stream = []) :
    readNextInternal st.stream = .err .closed []
  ∧ (∀ l : List String, (∀ x ∈ l, (rustTrim x).data.isEmpty = true) →
       readNextInternal l = .err .closed [])
  ∧ nextMessage st = .err .closed st
  ∧ sendRequest m p st =
      .err .closed
        { st with
          nextId := wrapI64 (st.nextId + 1)
          pending := insertPending (.num st.nextId) st.pending
          sent := st.sent ++
            [requestToJson ⟨"2.0", .num st.nextId, m, p⟩] } := by
  refine ⟨by rw [h]; rfl, ?_, ?_, ?_⟩
  · intro l hl
    induction l with
    | nil => rfl
    | cons x xs ih =>
      rw [readNextInternal]
      rw [hl x (List.mem_cons_self x xs)]
      simp only [if_true]
      exact ih fun y hy => hl y (List.mem_cons_of_mem x hy)
  · unfold nextMessage
    rw [h]
    rfl
  · unfold sendRequest
    rw [h]
    rfl

/-- Witness for `closed_on_end_of_stream` at a concrete drained
connection. -/
theorem closed_on_end_of_stream_witness :
    nextMessage ⟨[], 5, [], []⟩ = .err .closed ⟨[], 5, [], []⟩ :=
  (closed_on_end_of_stream ⟨[], 5, [], []⟩ "m" none rfl).2.2.1

/-- The connection state carried by a non-panic outcome. -/
def SendResult.postState : SendResult → Option McplConnection
  | .ok _ st => some st
  | .err _ st => some st
  | .panicked => none

theorem sendRequestLoop_post (idK : Int) :
    ∀ (fuel : Nat) (st st' : McplConnection),
      (sendRequestLoop idK fuel st).postState = some st' →
      st'.nextId = st.nextId ∧ st'.sent = st.sent ∧
        (JsonRpcId.num idK ∈ st.pending → JsonRpcId.num idK ∈ st'.pending) := by
  intro fuel
  induction fuel with
  | zero =>
    intro st st' h
    rw [sendRequestLoop] at h
    cases h
    exact ⟨rfl, rfl, id⟩
  | succ n ih =>
    intro st st' h
    rw [sendRequestLoop] at h
    split at h
    · cases h
    · cases h
      exact ⟨rfl, rfl, id⟩
    · rename_i resp rest heq
      split at h
      · rename_i hid
        split at h
        · cases h
          exact ⟨rfl, rfl, id⟩
        · cases h
          exact ⟨rfl, rfl, id⟩
      · rename_i hid
        have hmem := ih _ _ h
        refine ⟨hmem.1, hmem.2.1, fun hm => hmem.2.2 ?_⟩
        exact (List.mem_erase_of_ne fun hh => hid hh.symm).mpr hm
    · rename_i m rest heq
      have hmem := ih _ _ h
      exact hmem

/-- C5 (amended): on every return from `send_request` with a success payload
or an RPC error the call itself is resolved, but the pending-map entry
inserted for the call's identifier is not removed on the return path: the
identifier is still present in `pending` in the post-state. -/
theorem pending_entry_remains (m : String) (p : Option Json)
    (st : McplConnection) :
    (∀ pay st', sendRequest m p st = .ok pay st' →
       JsonRpcId.num st.nextId ∈ st'.pending)
  ∧ (∀ c msg st', sendRequest m p st = .err (.rpc c msg) st' →
       JsonRpcId.num st.nextId ∈ st'.pending) := by
  constructor
  · intro pay st' h
    have hps : (sendRequest m p st).postState = some st' := by rw [h]; rfl
    unfold sendRequest at hps
    have hpost := sendRequestLoop_post st.nextId _ _ _ hps
    exact hpost.2.2 (List.mem_cons_self _ _)
  · intro c msg st' h
    have hps : (sendRequest m p st).postState = some st' := by rw [h]; rfl
    unfold sendRequest at hps
    have hpost := sendRequestLoop_post st.nextId _ _ _ hps
    exact hpost.2.2 (List.mem_cons_self _ _)

/-- Witness for `pending_entry_remains` at a concrete resolved call. -/
theorem pending_entry_remains_witness :
    JsonRpcId.num 1 ∈
      ([JsonRpcId.num 1] : List JsonRpcId) :=
  (pending_entry_remains "m" none
    (fromParts ["\x7b\"jsonrpc\":\"2.0\",\"id\":1,\"result\":7\x7d"])).1
    (.num 7)
    ⟨[], 2, [JsonRpcId.num 1], [requestToJson ⟨"2.0", .num 1, "m", none⟩]⟩
    rfl

/-- C5 counterexample: a call that resolves successfully returns with the
pending entry for its identifier (1) still in the map — the post-state's
`pending` is `[1]`, not empty, contradicting the claim that no entry for
the completed call's identifier remains. -/
theorem pending_not_cleared_on_return :
    sendRequest "m" none
        (fromParts ["\x7b\"jsonrpc\":\"2.0\",\"id\":1,\"result\":7\x7d"]) =
      .ok (.num 7)
        ⟨[], 2, [JsonRpcId.num 1], [requestToJson ⟨"2.0", .num 1, "m", none⟩]⟩
    ∧ JsonRpcId.num 1 ∈ ([JsonRpcId.num 1] : List JsonRpcId) :=
  ⟨rfl, by decide⟩

/-- Orbit of the `AtomicI64` request counter: `AtomicI64::new(1)` stepped by
`fetch_add(1, Relaxed)`, which wraps on overflow; `idSeq n` is the
identifier allocated by call number `n + 1` on a fresh connection. -/
def idSeq : Nat → Int
  | 0 => 1
  | n + 1 => wrapI64 (idSeq n + 1)

theorem wrapI64_idem (x : Int) : wrapI64 (wrapI64 x + 1) = wrapI64 (x + 1) := by
  unfold wrapI64
  have h1 : (2 : Int) ^ 63 = 9223372036854775808 := by norm_num
  have h2 : (2 : Int) ^ 64 = 18446744073709551616 := by norm_num
  rw [h1, h2]
  omega

theorem wrapI64_eq_self {x : Int} (h1 : -(2 ^ 63) ≤ x) (h2 : x ≤ 2 ^ 63 - 1) :
    wrapI64 x = x := by
  unfold wrapI64
  have e1 : (2 : Int) ^ 63 = 9223372036854775808 := by norm_num
  have e2 : (2 : Int) ^ 64 = 18446744073709551616 := by norm_num
  rw [e1, e2]
  rw [e1] at h1 h2
  omega

theorem idSeq_closed (n : Nat) : idSeq n = wrapI64 (1 + n) := by
  induction n with
  | zero =>
    show (1 : Int) = wrapI64 1
    rw [wrapI64_eq_self] <;> norm_num
  | succ k ih =>
    show wrapI64 (idSeq k + 1) = wrapI64 (1 + (k + 1))
    rw [ih, wrapI64_idem]
    ring_nf

theorem idSeq_small (n : Nat) (h : (n : Int) ≤ 2 ^ 63 - 2) : idSeq n = 1 + n := by
  rw [idSeq_closed]
  apply wrapI64_eq_self
  · have : (0 : Int) ≤ n := Int.natCast_nonneg n
    omega
  · omega

/-- C4 (amended): the identifier counter is connection-owned and starts at 1
on a fresh connection; every `send_request` call allocates the current
counter value into the written request and advances the counter by a
wrapping i64 increment; the resulting identifier sequence `idSeq` is
strictly increasing (starting at 1) for the first `2^63 - 1` calls.  (At
call number `2^63` the i64 counter wraps to `-2^63`, so unbounded
monotonicity fails — see the counterexample.) -/
theorem id_allocation (l : List String) (m : String) (p : Option Json)
    (st : McplConnection) :
    (fromParts l).nextId = 1
  ∧ (∀ st', (sendRequest m p st).postState = some st' →
       st'.nextId = wrapI64 (st.nextId + 1) ∧
       st'.sent = st.sent ++ [requestToJson ⟨"2.0", .num st.nextId, m, p⟩])
  ∧ idSeq 0 = 1
  ∧ (∀ n : Nat, idSeq (n + 1) = wrapI64 (idSeq n + 1))
  ∧ (∀ i j : Nat, i < j → (j : Int) ≤ 2 ^ 63 - 2 → idSeq i < idSeq j) := by
  refine ⟨rfl, ?_, rfl, fun n => rfl, ?_⟩
  · intro st' h
    unfold sendRequest at h
    have hpost := sendRequestLoop_post st.nextId _ _ _ h
    exact ⟨hpost.1, hpost.2.1⟩
  · intro i j hij hj
    have hi : (i : Int) ≤ 2 ^ 63 - 2 := by
      have : (i : Int) < j := by exact_mod_cast hij
      omega
    rw [idSeq_small i hi, idSeq_small j hj]
    have : (i : Int) < j := by exact_mod_cast hij
    omega

/-- Witness for `id_allocation`: the counter of a fresh connection advances
from 1 to 2 across a resolved call. -/
theorem id_allocation_witness :
    (McplConnection.mk [] 2 [JsonRpcId.num 1]
        [requestToJson ⟨"2.0", .num 1, "m", none⟩]).nextId =
      wrapI64
        ((fromParts ["\x7b\"jsonrpc\":\"2.0\",\"id\":1,\"result\":7\x7d"]).nextId
          + 1) :=
  ((id_allocation [] "m" none
      (fromParts ["\x7b\"jsonrpc\":\"2.0\",\"id\":1,\"result\":7\x7d"])).2.1
    ⟨[], 2, [JsonRpcId.num 1], [requestToJson ⟨"2.0", .num 1, "m", none⟩]⟩
    rfl).1

/-- C4 counterexample: the identifier allocated by call number `2^63`
(`idSeq (2^63 - 1) = -2^63`, the wrapped i64 counter) is smaller than the
one allocated by the preceding call (`2^63 - 1`), so the allocated sequence
is not strictly increasing for every `N`. -/
theorem id_counter_wraps : idSeq (2 ^ 63 - 1) < idSeq (2 ^ 63 - 2) := by
  have h2 : idSeq (2 ^ 63 - 2) = 1 + ((2 : Nat) ^ 63 - 2 : Nat) := by
    apply idSeq_small
    push_cast
  have h1 : idSeq (2 ^ 63 - 1) = -(2 ^ 63) := by
    rw [idSeq_closed]
    have hc : (1 : Int) + ((2 : Nat) ^ 63 - 1 : Nat) = 2 ^ 63 := by
      push_cast
    rw [hc]
    unfold wrapI64
    norm_num
  rw [h1, h2]
  push_cast

/-- C10: the connection never validates the protocol version tag of inbound
messages: for any string `ver` in the `jsonrpc` field, a response line
carrying the awaited id resolves `send_request` with its result — the
outcome does not mention `ver` at all, so a `"1.0"` tag behaves exactly as
`"2.0"`. -/
theorem jsonrpc_tag_not_validated (ver m : String) (p : Option Json) (r : Json)
    (st : McplConnection) (line : String) (rest : List String)
    (hstream : st.stream = line :: rest)
    (hK1 : i64Min ≤ st.nextId) (hK2 : st.nextId ≤ i64Max)
    (hp : parseJson (rustTrim line) =
      .ok (.obj [("jsonrpc", .str ver), ("id", .num st.nextId), ("result", r)])) :
    sendRequest m p st =
      .ok ((decodeOptValue (some r)).getD .null)
        { stream := rest, nextId := wrapI64 (st.nextId + 1),
          pending := insertPending (.num st.nextId) st.pending,
          sent := st.sent ++ [requestToJson ⟨"2.0", .num st.nextId, m, p⟩] } := by
  have hread : readNextInternal (line :: rest) =
      .ok (.response ⟨ver, .num st.nextId, decodeOptValue (some r), none⟩) rest := by
    rw [readNextInternal_cons_parsed hp]
    unfold readValue
    have hid : (Json.obj [("jsonrpc", .str ver), ("id", .num st.nextId),
        ("result", r)]).get "id" = some (.num st.nextId) := by
      simp [Json.get, lookupField]
    have hm : (Json.obj [("jsonrpc", .str ver), ("id", .num st.nextId),
        ("result", r)]).get "method" = none := by
      simp [Json.get, lookupField]
    have hres : (Json.obj [("jsonrpc", .str ver), ("id", .num st.nextId),
        ("result", r)]).get "result" = some r := by
      simp [Json.get, lookupField]
    have hjr : (Json.obj [("jsonrpc", .str ver), ("id", .num st.nextId),
        ("result", r)]).get "jsonrpc" = some (.str ver) := by
      simp [Json.get, lookupField]
    have herr : (Json.obj [("jsonrpc", .str ver), ("id", .num st.nextId),
        ("result", r)]).get "error" = none := by
      simp [Json.get, lookupField]
    rw [hid, hm, hres]
    simp only [Option.isSome_some, Option.isSome_none, Bool.and_false,
      Bool.false_eq_true, if_false, Bool.true_and, Bool.true_or, if_true]
    have hdec : decodeResponse (Json.obj [("jsonrpc", .str ver),
        ("id", .num st.nextId), ("result", r)]) =
        .ok ⟨ver, .num st.nextId, decodeOptValue (some r), none⟩ := by
      unfold decodeResponse reqField
      rw [hjr]
      simp only []
      rw [show decodeString (.str ver) = .ok ver from rfl]
      simp only []
      rw [hid]
      simp only []
      rw [show decodeId (.num st.nextId) = .ok (.num st.nextId) from by
        simp [decodeId, hK1, hK2]]
      simp only []
      rw [herr]
      simp only [decodeOptError]
      rw [hres]
    rw [hdec]
  unfold sendRequest
  simp only [hstream, List.length_cons]
  rw [sendRequestLoop]
  simp only [hstream]
  rw [hread]
  simp only []
  simp only [if_true]

/-- Witness for `jsonrpc_tag_not_validated`: a response tagged `"1.0"`
resolves the call with its result. -/
theorem jsonrpc_tag_not_validated_witness :
    sendRequest "m" none
        (fromParts ["\x7b\"jsonrpc\":\"1.0\",\"id\":1,\"result\":42\x7d"]) =
      .ok ((decodeOptValue (some (.num 42))).getD .null)
        { stream := [], nextId := wrapI64 (1 + 1),
          pending := insertPending (.num 1) [],
          sent := [] ++ [requestToJson ⟨"2.0", .num 1, "m", none⟩] } :=
  jsonrpc_tag_not_validated "1.0" "m" none (.num 42)
    (fromParts ["\x7b\"jsonrpc\":\"1.0\",\"id\":1,\"result\":42\x7d"])
    "\x7b\"jsonrpc\":\"1.0\",\"id\":1,\"result\":42\x7d" [] rfl
    (by norm_num [i64Min, fromParts]) (by norm_num [i64Max, fromParts]) rfl

/-- C1: contrary to the buffering claim (and to the repository's own test
`test_incoming_messages_buffered_during_send_request`), the `send_request`
read loop logs and drops an incoming Request/Notification
(`connection.rs` lines 107-112).  Here the peer sends Notification `evt`,
then Request id 9, then the matching Response: the call resolves with the
result, but the post-state retains nothing of the two peer messages (the
connection has no buffer at all), and the following `next_message` hits end
of stream instead of yielding the notification. -/
theorem send_request_drops_incoming :
    sendRequest "m" none
        (fromParts
          ["\x7b\"jsonrpc\":\"2.0\",\"method\":\"evt\"\x7d",
           "\x7b\"jsonrpc\":\"2.0\",\"id\":9,\"method\":\"b\"\x7d",
           "\x7b\"jsonrpc\":\"2.0\",\"id\":1,\"result\":7\x7d"]) =
      .ok (.num 7)
        ⟨[], 2, [JsonRpcId.num 1], [requestToJson ⟨"2.0", .num 1, "m", none⟩]⟩
    ∧ nextMessage
        ⟨[], 2, [JsonRpcId.num 1], [requestToJson ⟨"2.0", .num 1, "m", none⟩]⟩ =
      .err .closed
        ⟨[], 2, [JsonRpcId.num 1], [requestToJson ⟨"2.0", .num 1, "m", none⟩]⟩ :=
  ⟨rfl, rfl⟩

/-! ### C6: encode-classify-decode round trip -/

/-- Identifiers representable in the Rust `JsonRpcId` type (`i64` for the
`Number` variant). -/
def wfId : JsonRpcId → Prop
  | .num n => i64Min ≤ n ∧ n ≤ i64Max
  | .str _ => True

/-- Error objects representable in the Rust `JsonRpcError` type (`i32`
code), with `data` not the JSON `null` (serde collapses an optional `null`
to absent on decode). -/
def wfError (e : JsonRpcError) : Prop :=
  -(2 ^ 31) ≤ e.code ∧ e.code ≤ 2 ^ 31 - 1 ∧ e.data ≠ some .null

/-- Supported message shapes for the round trip: representable identifiers
and error codes, optional fields either absent or non-`null`, and a
Response carrying a result or an error. -/
def wfMessage : JsonRpcMessage → Prop
  | .request r => wfId r.id ∧ r.params ≠ some .null
  | .response r => wfId r.id ∧ r.result ≠ some .null ∧
      (r.result.isSome = true ∨ r.error.isSome = true) ∧
      (∀ e, r.error = some e → wfError e)
  | .notification n => n.params ≠ some .null

/-- The `InternalMessage` a message appears as after one classified read. -/
def msgToInternal : JsonRpcMessage → InternalMessage
  | .request r => .incoming (.request r)
  | .response r => .response r
  | .notification n => .incoming (.notification n)

theorem decodeOptValue_ne_null {o : Option Json} (h : o ≠ some .null) :
    decodeOptValue o = o := by
  cases o with
  | none => rfl
  | some v => cases v <;> simp_all [decodeOptValue]

theorem decodeId_toJson {id : JsonRpcId} (h : wfId id) :
    decodeId id.toJson = .ok id := by
  cases id with
  | num n => simp [JsonRpcId.toJson, decodeId, h.1, h.2]
  | str s => rfl

theorem decodeI32_ok {n : Int} (hc1 : -(2 ^ 31) ≤ n) (hc2 : n ≤ 2 ^ 31 - 1) :
    decodeI32 (.num n) = .ok n := by
  simp only [decodeI32]
  rw [if_pos ⟨hc1, hc2⟩]

theorem decodeError_toJson {e : JsonRpcError} (h : wfError e) :
    decodeError (errorToJson e) = .ok e := by
  obtain ⟨code, message, data⟩ := e
  unfold wfError at h
  dsimp only [] at h
  obtain ⟨hc1, hc2, hdata⟩ := h
  have hi := decodeI32_ok hc1 hc2
  have hp := decodeOptValue_ne_null hdata
  cases data with
  | none =>
    simp [errorToJson, decodeError, reqField, Json.get, lookupField, optField,
      decodeString, hi]
    rfl
  | some d =>
    simp [errorToJson, decodeError, reqField, Json.get, lookupField, optField,
      decodeString, hi, hp]

theorem decodeOptError_toJson {e : JsonRpcError} (h : wfError e) :
    decodeOptError (some (errorToJson e)) = .ok (some e) := by
  have hr : decodeOptError (some (errorToJson e)) =
      (decodeError (errorToJson e)).map some := rfl
  rw [hr, decodeError_toJson h]
  rfl

theorem roundtrip_request (r : JsonRpcRequest) (h1 : wfId r.id)
    (h2 : r.params ≠ some .null) (t : String) (rest : List String) :
    readValue (requestToJson r) t rest = .ok (.incoming (.request r)) rest := by
  obtain ⟨jsonrpc, id, method, params⟩ := r
  have hd := decodeId_toJson h1
  have hp := decodeOptValue_ne_null h2
  cases params with
  | none =>
    simp [readValue, requestToJson, Json.get, lookupField, optField,
      decodeRequest, reqField, decodeString, hd]
    rfl
  | some p =>
    simp [readValue, requestToJson, Json.get, lookupField, optField,
      decodeRequest, reqField, decodeString, hd, hp]

theorem roundtrip_response (r : JsonRpcResponse) (h1 : wfId r.id)
    (h2 : r.result ≠ some .null)
    (h3 : r.result.isSome = true ∨ r.error.isSome = true)
    (h4 : ∀ e, r.error = some e → wfError e)
    (t : String) (rest : List String) :
    readValue (responseToJson r) t rest = .ok (.response r) rest := by
  obtain ⟨jsonrpc, id, result, error⟩ := r
  dsimp only [] at h1 h2 h3 h4
  have hd := decodeId_toJson h1
  have hp := decodeOptValue_ne_null h2
  cases result with
  | none =>
    cases error with
    | none => simp at h3
    | some e =>
      have he := decodeOptError_toJson (h4 e rfl)
      simp [readValue, responseToJson, Json.get, lookupField, optField,
        decodeResponse, reqField, decodeString, hd, he]
      rfl
  | some res =>
    cases error with
    | none =>
      simp [readValue, responseToJson, Json.get, lookupField, optField,
        decodeResponse, reqField, decodeString, hd, decodeOptError, hp]
    | some e =>
      have he := decodeOptError_toJson (h4 e rfl)
      simp [readValue, responseToJson, Json.get, lookupField, optField,
        decodeResponse, reqField, decodeString, hd, he, hp]

theorem roundtrip_notification (n : JsonRpcNotification)
    (h2 : n.params ≠ some .null) (t : String) (rest : List String) :
    readValue (notificationToJson n) t rest =
      .ok (.incoming (.notification n)) rest := by
  obtain ⟨jsonrpc, method, params⟩ := n
  have hp := decodeOptValue_ne_null h2
  cases params with
  | none =>
    simp [readValue, notificationToJson, Json.get, lookupField, optField,
      decodeNotification, reqField, decodeString]
    rfl
  | some p =>
    simp [readValue, notificationToJson, Json.get, lookupField, optField,
      decodeNotification, reqField, decodeString, hp]

/-- C6 (amended): for every supported message shape whose optional fields
(`params` / `result` / `error.data`) are absent or non-`null`, serializing
the message and then classifying and decoding the serialized value yields
the original message (identifier variant and value, method,
params/result/error all preserved); a serialized Notification carries no
`id` field at all.  (A `Some(Null)` optional field is collapsed to absent
by serde's decode — see the counterexample.) -/
theorem roundtrip (msg : JsonRpcMessage) (t : String) (rest : List String)
    (h : wfMessage msg) :
    readValue (messageToJson msg) t rest = .ok (msgToInternal msg) rest
  ∧ ∀ n : JsonRpcNotification, (notificationToJson n).get "id" = none := by
  constructor
  · cases msg with
    | request r => exact roundtrip_request r h.1 h.2 t rest
    | response r => exact roundtrip_response r h.1 h.2.1 h.2.2.1 h.2.2.2 t rest
    | notification n => exact roundtrip_notification n h t rest
  · intro n
    obtain ⟨jsonrpc, method, params⟩ := n
    cases params <;>
      simp [notificationToJson, Json.get, lookupField, optField]

/-- Witness for `roundtrip` at a concrete Request with an integer id. -/
theorem roundtrip_witness :
    readValue (messageToJson (.request ⟨"2.0", .num 3, "w", none⟩)) "t" [] =
      .ok (msgToInternal (.request ⟨"2.0", .num 3, "w", none⟩)) [] :=
  (roundtrip (.request ⟨"2.0", .num 3, "w", none⟩) "t" []
    ⟨⟨by norm_num [i64Min], by norm_num [i64Max]⟩, by simp⟩).1

/-- C6 counterexample: a Response carrying `result: null` — a supported
JSON-RPC response shape — decodes back with `result` absent (`None`), not
`Some(Null)`: encode-classify-decode does not return the original message,
because serde collapses an optional field holding `null` to a missing
field. -/
theorem roundtrip_loses_null_result :
    readValue (messageToJson (.response ⟨"2.0", .num 1, some .null, none⟩))
        "t" [] =
      .ok (.response ⟨"2.0", .num 1, none, none⟩) []
    ∧ some Json.null ≠ (none : Option Json) :=
  ⟨rfl, by simp⟩
